import Mathlib

/-!
Verification of the flow-machine builders of the State-Machine repository.

The repository contains three variants of a builder that compiles a list of
`FlowSpec` records into a declarative state-machine description for the
xstate v5 runtime:

* `createFlowMachineWithData` (strict, normalizing, data-carrying variant):
  trims names, throws on an empty spec list, on duplicate state names and on
  undeclared transition targets, and installs global data-update event
  handlers, optionally gated by a restriction map.
* `createFlowMachine` (lenient, no-data variant): throws only on an empty
  spec list; duplicate names and unknown targets are reported via console
  errors and construction continues.
* `makeFlowMachine` (minimal variant): like the lenient variant but without
  the duplicate-name check.

Throwing is modelled with `Except BuildError`; console output is modelled as
a list of `LogEntry` values.  JavaScript objects built with
`Object.fromEntries` / key assignment are modelled as association lists in
insertion order with a last-entry-wins lookup (`objLookup`).

The runtime behaviour of firing events is the behaviour of the xstate v5
interpreter on the generated description, modelled by `stepFlow` /
`stepFlowD`: transition candidates of the current (atomic, top-level) state
take precedence over root-level handlers; a machine whose current state is a
final ("terminal") top-level state is done and ignores every event; a
targetless transition executes its actions without changing the current
state.

One runtime path of the source is broken and is modelled as such: the
guarded candidate pair installed for a restricted update entry references
`self` incorrectly.  Its guard destructures `self` from the guard
arguments, but xstate v5 passes guards only `context` and `event`, so the
guard calls `getSnapshot` on `undefined` and throws a TypeError; the
fallback warn candidate is never reached.  (The assign callback of the
first candidate would equally throw: it destructures only `context` and
`event`, so the `self` in its body resolves to the enclosing scope — the
browser global object, which has no `getSnapshot`.)  The actor catches the
exception and stops in its error status with the last snapshot retained:
no state change, no data change, no console warning.  `applyGlobal` models
this outcome with `LogEntry.thrownTypeError`.
-/

/-- JavaScript string trim applied by the `norm` helper of the source:
`const norm = (s) => (s ?? "").trim()`.  Modelled on the character list of
the string: drop leading and trailing whitespace. -/
def norm (s : String) : String :=
  ⟨((s.data.dropWhile Char.isWhitespace).reverse.dropWhile Char.isWhitespace).reverse⟩

/-- One state declaration: `{ name: StateName; to: StateName[]; terminal?: boolean }`.
The optional `terminal` field is coerced to a boolean (`!!s.terminal`). -/
structure FlowSpec where
  name : String
  «to» : List String
  terminal : Bool
  deriving DecidableEq, Repr

/-- `normalizeSpecs` from the data-carrying source file: trims every state
name and every target name, and coerces `terminal` to a boolean. -/
def normalizeSpecs (specs : List FlowSpec) : List FlowSpec :=
  specs.map (fun s => { name := norm s.name, terminal := s.terminal, «to» := s.«to».map norm })

/-- The construction errors thrown by the builders (`throw new Error(...)`). -/
inductive BuildError where
  | emptySpecs : BuildError
  | duplicateState : String → BuildError
  | undefinedTargets : List (String × String) → BuildError
  deriving DecidableEq, Repr

/-- Observable outcome of a construction step or of firing an event:
console output (`console.error` / `console.warn` calls of the source), or
the uncaught TypeError thrown while processing an event, which stops the
actor in its error status (`thrownTypeError`, carrying the event name). -/
inductive LogEntry where
  | warnIgnored : String → LogEntry
  | errorDuplicate : String → LogEntry
  | errorUnknownTarget : String → String → LogEntry
  | thrownTypeError : String → LogEntry
  deriving DecidableEq, Repr

/-- Lookup in a JavaScript object built from an entry list
(`Object.fromEntries` or repeated key assignment): a later entry with the
same key overwrites an earlier one. -/
def objLookup {α : Type} : List (String × α) → String → Option α
  | [], _ => none
  | (k, v) :: rest, key =>
    match objLookup rest key with
    | some w => some w
    | none => if k = key then some v else none

/-- The declared state names, in order: `specs.map((s) => s.name)`. -/
def declaredNames (specs : List FlowSpec) : List String := specs.map (·.name)

/-- The `missing` list of the strict builder, shared by the loops of the
lenient builders: every edge `(s.name, t)` with `t ∈ s.«to»` whose target `t`
is not a declared state name, in spec order then `to` order. -/
def undefinedEdges (specs : List FlowSpec) : List (String × String) :=
  specs.flatMap (fun s =>
    (s.«to».filter (fun t => !((declaredNames specs).contains t))).map (fun t => (s.name, t)))

/-- The first state name that repeats an earlier one:
`names.find((n, i) => names.indexOf(n) !== i)`. -/
def findDup (seen : List String) : List String → Option String
  | [] => none
  | n :: rest => if n ∈ seen then some n else findDup (seen ++ [n]) rest

/-- One node of the generated `states` object: terminal specs become
`{ type: "final" }` (no `on` table), other specs get one entry per outgoing
edge. -/
structure StateNode where
  isFinal : Bool
  «on» : List (String × String)
  deriving DecidableEq, Repr

/-- The fixed edge-event naming scheme of the source: `` `TO_${target}` ``. -/
def edgeEvent (t : String) : String := "TO_" ++ t

/-- The node generated for one spec:
`s.terminal ? { type: "final" } : { on: fromEntries(s.«to».map((t) => [TO_t, { target: t }])) }`. -/
def mkNode (s : FlowSpec) : StateNode :=
  if s.terminal then { isFinal := true, «on» := [] }
  else { isFinal := false, «on» := s.«to».map (fun t => (edgeEvent t, t)) }

/-- The generated `states` object: one node per spec, keyed by state name. -/
def mkStates (specs : List FlowSpec) : List (String × StateNode) :=
  specs.map (fun s => (s.name, mkNode s))

/-- A root-level ("global") update-event handler of the data-carrying
variant, as configured.  `restrictedOn allowed u` models the two-candidate
transition list
`[ { guard: state ∈ allowed, actions: assign(updater(data, value, state)) },
   { actions: console.warn } ]`; `unrestrictedOn u` models the single
unguarded candidate whose updater receives `""` as the current-state
argument.  Dispatching a `restrictedOn` handler crashes at runtime
(see `applyGlobal`), so its allowed list and updater are never consulted. -/
inductive GlobalHandler (Data Value : Type) where
  | restrictedOn : List String → (Data → Value → String → Data) → GlobalHandler Data Value
  | unrestrictedOn : (Data → Value → String → Data) → GlobalHandler Data Value

/-- The handler installed for one `UpdateMap` entry: the allowed-state list
is `(restricted?.[eventType] ?? []).map(norm)`; a non-empty list selects the
guarded candidate pair, an empty one the unguarded handler. -/
def mkHandler {Data Value : Type} (restricted : List (String × List String))
    (ev : String) (u : Data → Value → String → Data) : GlobalHandler Data Value :=
  if ((objLookup restricted ev).getD []).map norm = [] then .unrestrictedOn u
  else .restrictedOn (((objLookup restricted ev).getD []).map norm) u

/-- The root-level `on` object of the data-carrying variant: one handler per
`Object.entries(updates)` entry, keyed by event name. -/
def mkGlobalOn {Data Value : Type} (updates : List (String × (Data → Value → String → Data)))
    (restricted : List (String × List String)) : List (String × GlobalHandler Data Value) :=
  updates.map (fun p => (p.1, mkHandler restricted p.1 p.2))

/-- The machine description produced by `createFlowMachineWithData`:
`createMachine({ id, context: { data }, initial, states, on })`. -/
structure MachineD (Data Value : Type) where
  initial : String
  states : List (String × StateNode)
  globalOn : List (String × GlobalHandler Data Value)
  initData : Data

/-- The machine description produced by the two no-data builders:
`createMachine({ id, initial, states })`. -/
structure Machine where
  initial : String
  states : List (String × StateNode)
  deriving DecidableEq, Repr

/-- `createFlowMachineWithData` (strict, data-carrying builder): normalizes
the specs, throws on an empty list, on the first duplicated state name and
on undeclared transition targets (listing the dangling edges), then builds
the state table and the global update handlers. -/
def createFlowMachineWithData {Data Value : Type} (inputSpecs : List FlowSpec)
    (initialContext : Data)
    (updates : List (String × (Data → Value → String → Data)))
    (restricted : List (String × List String)) :
    Except BuildError (MachineD Data Value) :=
  if h : normalizeSpecs inputSpecs = [] then .error .emptySpecs
  else
    match findDup [] (declaredNames (normalizeSpecs inputSpecs)) with
    | some d => .error (.duplicateState d)
    | none =>
      if undefinedEdges (normalizeSpecs inputSpecs) = [] then
        .ok { initial := ((normalizeSpecs inputSpecs).head h).name,
              states := mkStates (normalizeSpecs inputSpecs),
              globalOn := mkGlobalOn updates restricted,
              initData := initialContext }
      else .error (.undefinedTargets (undefinedEdges (normalizeSpecs inputSpecs)))

/-- `createFlowMachine` (lenient, no-data builder): throws only on an empty
spec list; a duplicated state name and each unknown target are reported with
`console.error` and construction continues.  No normalization is applied.
The duplicate error is logged before the per-edge errors, matching source
order. -/
def createFlowMachine (specs : List FlowSpec) :
    Except BuildError (Machine × List LogEntry) :=
  if h : specs = [] then .error .emptySpecs
  else
    .ok ({ initial := (specs.head h).name, states := mkStates specs },
      (match findDup [] (declaredNames specs) with
        | some d => [LogEntry.errorDuplicate d]
        | none => []) ++
      (undefinedEdges specs).map (fun p => LogEntry.errorUnknownTarget p.1 p.2))

/-- `makeFlowMachine` (minimal no-data builder): like `createFlowMachine`
but without the duplicate-name check. -/
def makeFlowMachine (specs : List FlowSpec) :
    Except BuildError (Machine × List LogEntry) :=
  if h : specs = [] then .error .emptySpecs
  else
    .ok ({ initial := (specs.head h).name, states := mkStates specs },
      (undefinedEdges specs).map (fun p => LogEntry.errorUnknownTarget p.1 p.2))

/-- The mutable part of a running data-carrying actor: the current state
value and the attached data (`snapshot.value`, `snapshot.context.data`). -/
structure SnapshotD (Data : Type) where
  value : String
  data : Data
  deriving DecidableEq, Repr

/-- Firing one event on the no-data machine under xstate v5 semantics: a
final current state ignores every event; otherwise the event either matches
an edge entry of the current node (moving to its target) or is ignored. -/
def stepFlow (m : Machine) (current : String) (ev : String) : String :=
  match objLookup m.states current with
  | none => current
  | some node =>
    if node.isFinal then current
    else
      match objLookup node.«on» ev with
      | some target => target
      | none => current

/-- Dispatch of a root-level update handler of the data-carrying machine.
The unguarded handler applies the updater with `""` as the current-state
argument; targetless transitions never change the current state.  The
guarded (restricted) candidate pair crashes: evaluating the first
candidate's guard `({ self }) => allowed.includes(String(self.getSnapshot().value))`
throws a TypeError because xstate v5 guard arguments contain no `self`
(and the assign callback's free `self` is the global object), so the actor
stops in its error status with the snapshot retained — the updater is
never applied, the warn candidate is never reached, and allowed membership
is never tested. -/
def applyGlobal {Data Value : Type} (m : MachineD Data Value) (snap : SnapshotD Data)
    (ev : String) (v : Value) : SnapshotD Data × List LogEntry :=
  match objLookup m.globalOn ev with
  | none => (snap, [])
  | some (.unrestrictedOn u) => ({ snap with data := u snap.data v "" }, [])
  | some (.restrictedOn _ _) => (snap, [LogEntry.thrownTypeError ev])

/-- Firing one event on the data-carrying machine under xstate v5 semantics:
a final current state makes the machine done, so every event is ignored; an
edge entry of the current node takes precedence over a root-level handler
with the same event name; otherwise the root-level update handlers are
dispatched (`applyGlobal`). -/
def stepFlowD {Data Value : Type} (m : MachineD Data Value) (snap : SnapshotD Data)
    (ev : String) (v : Value) : SnapshotD Data × List LogEntry :=
  match objLookup m.states snap.value with
  | none => (snap, [])
  | some node =>
    if node.isFinal then (snap, [])
    else
      match objLookup node.«on» ev with
      | some target => ({ snap with value := target }, [])
      | none => applyGlobal m snap ev v

/-- A valid spec set in the sense of the spec document: non-empty, unique
state names, every transition target declared. -/
def validSpecs (specs : List FlowSpec) : Prop :=
  specs ≠ [] ∧ (declaredNames specs).Nodup ∧
    ∀ s ∈ specs, ∀ t ∈ s.«to», t ∈ declaredNames specs

instance (specs : List FlowSpec) : Decidable (validSpecs specs) := by
  unfold validSpecs
  infer_instance

/-! ### Lookup lemmas for the object model -/

theorem objLookup_eq_none {α : Type} {l : List (String × α)} {key : String}
    (h : ∀ p ∈ l, p.1 ≠ key) : objLookup l key = none := by
  induction l with
  | nil => rfl
  | cons q rest ih =>
    have hrest := ih (fun p hp => h p (List.mem_cons_of_mem q hp))
    have hq : q.1 ≠ key := h q (List.mem_cons_self q rest)
    obtain ⟨k, v⟩ := q
    simp only [objLookup, hrest]
    exact if_neg hq

theorem objLookup_mem_nodup {α : Type} {l : List (String × α)} {p : String × α}
    (hnd : (l.map Prod.fst).Nodup) (hm : p ∈ l) : objLookup l p.1 = some p.2 := by
  induction l with
  | nil => cases hm
  | cons q rest ih =>
    rw [List.map_cons, List.nodup_cons] at hnd
    rcases List.mem_cons.mp hm with hq | hm2
    · subst hq
      have hnone : objLookup rest p.1 = none := by
        refine objLookup_eq_none (fun r hr he => ?_)
        exact hnd.1 (he ▸ List.mem_map_of_mem Prod.fst hr)
      obtain ⟨k, v⟩ := p
      simp [objLookup, hnone]
    · have hl := ih hnd.2 hm2
      obtain ⟨k, v⟩ := q
      simp only [objLookup, hl]

theorem objLookup_map_entry {α β : Type} (l : List (String × α)) (f : String → α → β)
    (key : String) :
    objLookup (l.map (fun p => (p.1, f p.1 p.2))) key = (objLookup l key).map (f key) := by
  induction l with
  | nil => rfl
  | cons q rest ih =>
    obtain ⟨k, v⟩ := q
    simp only [List.map_cons, objLookup, ih]
    cases h : objLookup rest key with
    | some w => simp
    | none =>
      by_cases hk : k = key
      · subst hk; simp
      · simp [hk]

theorem edgeEvent_injective {a b : String} (h : edgeEvent a = edgeEvent b) : a = b := by
  unfold edgeEvent at h
  have hd := congrArg String.data h
  simp only [String.data_append] at hd
  exact String.ext (List.append_cancel_left hd)

theorem objLookup_edges {ts : List String} {T : String} (h : T ∈ ts) :
    objLookup (ts.map (fun t => (edgeEvent t, t))) (edgeEvent T) = some T := by
  induction ts with
  | nil => cases h
  | cons t rest ih =>
    by_cases hr : T ∈ rest
    · simp only [List.map_cons, objLookup, ih hr]
    · have ht : T = t := by
        rcases List.mem_cons.mp h with h1 | h2
        · exact h1
        · exact absurd h2 hr
      subst ht
      have hnone : objLookup (rest.map (fun t => (edgeEvent t, t))) (edgeEvent T) = none := by
        refine objLookup_eq_none (fun p hp he => ?_)
        obtain ⟨t', ht', rfl⟩ := List.mem_map.mp hp
        exact hr (edgeEvent_injective he ▸ ht')
      simp [objLookup, hnone]

theorem objLookup_edges_none {ts : List String} {ev : String}
    (h : ∀ t ∈ ts, ev ≠ edgeEvent t) :
    objLookup (ts.map (fun t => (edgeEvent t, t))) ev = none := by
  refine objLookup_eq_none (fun p hp he => ?_)
  obtain ⟨t', ht', rfl⟩ := List.mem_map.mp hp
  exact h t' ht' he.symm

/-! ### Validation lemmas -/

theorem findDup_eq_none {l : List String} (hnd : l.Nodup) :
    ∀ {seen : List String}, (∀ n ∈ l, n ∉ seen) → findDup seen l = none := by
  induction l with
  | nil => intro seen _; rfl
  | cons n rest ih =>
    intro seen hs
    rw [List.nodup_cons] at hnd
    simp only [findDup, if_neg (hs n (List.mem_cons_self n rest))]
    refine ih hnd.2 (fun m hm hmem => ?_)
    rcases List.mem_append.mp hmem with h1 | h2
    · exact hs m (List.mem_cons_of_mem n hm) h1
    · rw [List.mem_singleton] at h2
      exact hnd.1 (h2 ▸ hm)

theorem undefinedEdges_eq_nil {specs : List FlowSpec}
    (h : ∀ s ∈ specs, ∀ t ∈ s.«to», t ∈ declaredNames specs) :
    undefinedEdges specs = [] := by
  unfold undefinedEdges
  rw [List.flatMap_eq_nil_iff]
  intro s hs
  rw [List.map_eq_nil_iff, List.filter_eq_nil_iff]
  intro t ht
  simp [h s hs t ht]

/-! ### Builder lemmas -/

theorem createWithData_eq_ok {Data Value : Type} {specs : List FlowSpec} (d : Data)
    (updates : List (String × (Data → Value → String → Data)))
    (restricted : List (String × List String))
    (hne : normalizeSpecs specs ≠ [])
    (hnd : (declaredNames (normalizeSpecs specs)).Nodup)
    (hcl : undefinedEdges (normalizeSpecs specs) = []) :
    createFlowMachineWithData specs d updates restricted =
      .ok { initial := ((normalizeSpecs specs).head hne).name,
            states := mkStates (normalizeSpecs specs),
            globalOn := mkGlobalOn updates restricted,
            initData := d } := by
  unfold createFlowMachineWithData
  rw [dif_neg hne]
  have hfd := findDup_eq_none hnd (fun n _ => List.not_mem_nil n)
  split
  · next d' heq => rw [hfd] at heq; cases heq
  · rw [if_pos hcl]

theorem createWithData_ok_elim {Data Value : Type} {specs : List FlowSpec} {d : Data}
    {updates : List (String × (Data → Value → String → Data))}
    {restricted : List (String × List String)} {m : MachineD Data Value}
    (h : createFlowMachineWithData specs d updates restricted = .ok m) :
    m.states = mkStates (normalizeSpecs specs) ∧
      m.globalOn = mkGlobalOn updates restricted := by
  unfold createFlowMachineWithData at h
  split at h
  · cases h
  · split at h
    · cases h
    · split at h
      · cases h
        exact ⟨rfl, rfl⟩
      · cases h

theorem createFlow_eq_ok {specs : List FlowSpec} (hne : specs ≠ []) :
    createFlowMachine specs =
      .ok ({ initial := (specs.head hne).name, states := mkStates specs },
        (match findDup [] (declaredNames specs) with
          | some d => [LogEntry.errorDuplicate d]
          | none => []) ++
        (undefinedEdges specs).map (fun p => LogEntry.errorUnknownTarget p.1 p.2)) := by
  unfold createFlowMachine
  rw [dif_neg hne]

theorem makeFlow_eq_ok {specs : List FlowSpec} (hne : specs ≠ []) :
    makeFlowMachine specs =
      .ok ({ initial := (specs.head hne).name, states := mkStates specs },
        (undefinedEdges specs).map (fun p => LogEntry.errorUnknownTarget p.1 p.2)) := by
  unfold makeFlowMachine
  rw [dif_neg hne]

theorem mkStates_lookup {specs : List FlowSpec} {s : FlowSpec}
    (hnd : (declaredNames specs).Nodup) (hs : s ∈ specs) :
    objLookup (mkStates specs) s.name = some (mkNode s) := by
  have hkeys : (mkStates specs).map Prod.fst = declaredNames specs := by
    simp [mkStates, declaredNames]
  exact objLookup_mem_nodup (hkeys ▸ hnd)
    (List.mem_map_of_mem (fun s => (s.name, mkNode s)) hs)

theorem mkGlobalOn_lookup {Data Value : Type}
    {updates : List (String × (Data → Value → String → Data))}
    {restricted : List (String × List String)} {ev : String}
    {u : Data → Value → String → Data}
    (hnd : (updates.map Prod.fst).Nodup) (hm : (ev, u) ∈ updates) :
    objLookup (mkGlobalOn updates restricted) ev = some (mkHandler restricted ev u) := by
  unfold mkGlobalOn
  rw [objLookup_map_entry, objLookup_mem_nodup hnd hm]
  rfl

/-! ### Step-semantics lemmas -/

theorem stepFlow_final {m : Machine} {c ev : String} {node : StateNode}
    (hn : objLookup m.states c = some node) (hf : node.isFinal = true) :
    stepFlow m c ev = c := by
  simp only [stepFlow, hn, hf, if_true]

theorem stepFlow_edge {m : Machine} {c ev target : String} {node : StateNode}
    (hn : objLookup m.states c = some node) (hf : node.isFinal = false)
    (he : objLookup node.«on» ev = some target) :
    stepFlow m c ev = target := by
  simp only [stepFlow, hn, hf, he, Bool.false_eq_true, if_false]

theorem stepFlow_miss {m : Machine} {c ev : String} {node : StateNode}
    (hn : objLookup m.states c = some node) (hf : node.isFinal = false)
    (he : objLookup node.«on» ev = none) :
    stepFlow m c ev = c := by
  simp only [stepFlow, hn, hf, he, Bool.false_eq_true, if_false]

theorem stepFlowD_final {Data Value : Type} {m : MachineD Data Value} {snap : SnapshotD Data}
    {ev : String} {v : Value} {node : StateNode}
    (hn : objLookup m.states snap.value = some node) (hf : node.isFinal = true) :
    stepFlowD m snap ev v = (snap, []) := by
  simp only [stepFlowD, hn, hf, if_true]

theorem stepFlowD_edge {Data Value : Type} {m : MachineD Data Value} {snap : SnapshotD Data}
    {ev target : String} {v : Value} {node : StateNode}
    (hn : objLookup m.states snap.value = some node) (hf : node.isFinal = false)
    (he : objLookup node.«on» ev = some target) :
    stepFlowD m snap ev v = ({ snap with value := target }, []) := by
  simp only [stepFlowD, hn, hf, he, Bool.false_eq_true, if_false]

theorem stepFlowD_global {Data Value : Type} {m : MachineD Data Value} {snap : SnapshotD Data}
    {ev : String} {v : Value} {node : StateNode}
    (hn : objLookup m.states snap.value = some node) (hf : node.isFinal = false)
    (he : objLookup node.«on» ev = none) :
    stepFlowD m snap ev v = applyGlobal m snap ev v := by
  simp only [stepFlowD, hn, hf, he, Bool.false_eq_true, if_false]

theorem applyGlobal_value {Data Value : Type} (m : MachineD Data Value) (snap : SnapshotD Data)
    (ev : String) (v : Value) : (applyGlobal m snap ev v).1.value = snap.value := by
  unfold applyGlobal
  split
  · rfl
  · rfl
  · rfl

theorem stepFlowD_value {Data Value : Type} {m : MachineD Data Value} {snap : SnapshotD Data}
    {ev : String} {v : Value}
    (h : ∀ node, objLookup m.states snap.value = some node → objLookup node.«on» ev = none) :
    (stepFlowD m snap ev v).1.value = snap.value := by
  unfold stepFlowD
  split
  · rfl
  · next node hn =>
    by_cases hf : node.isFinal
    · rw [if_pos hf]
    · rw [if_neg hf]
      rw [h node hn]
      exact applyGlobal_value m snap ev v

/-! ### Concrete fixtures

`demoSpecs` is the three-state scenario of the spec (Init → Edit → Saved,
Saved terminal); the `cex...` fixtures exhibit the corner cases in which
some claims fail: an update event named like an edge event (`TO_B`) and a
terminal state (`B`). -/

def demoSpecs : List FlowSpec :=
  [⟨"Init", ["Edit"], false⟩, ⟨"Edit", ["Saved"], false⟩, ⟨"Saved", [], true⟩]

/-- Updater that stores the event value, ignoring previous data and state. -/
def updPut : Nat → Nat → String → Nat := fun _ v _ => v

/-- Updater that adds the event value to the data. -/
def updAdd : Nat → Nat → String → Nat := fun d v _ => d + v

def demoUpdates : List (String × (Nat → Nat → String → Nat)) := [("SET_X", updPut)]

def demoRestr : List (String × List String) := [("SET_X", ["Edit"])]

def demoMD : MachineD Nat Nat :=
  (createFlowMachineWithData demoSpecs 0 demoUpdates demoRestr).toOption.getD ⟨"", [], [], 0⟩

def demoM : Machine := ((createFlowMachine demoSpecs).toOption.map Prod.fst).getD ⟨"", []⟩

def cexSpecs : List FlowSpec := [⟨"A", ["B"], false⟩, ⟨"B", [], true⟩]

def cexUpdates4 : List (String × (Nat → Nat → String → Nat)) :=
  [("TO_B", updAdd), ("E", updAdd)]

def cexMD4 : MachineD Nat Nat :=
  (createFlowMachineWithData cexSpecs 0 cexUpdates4 []).toOption.getD ⟨"", [], [], 0⟩

def cexRestr10 : List (String × List String) := [("TO_B", []), ("E", [])]

def cexMD10 : MachineD Nat Nat :=
  (createFlowMachineWithData cexSpecs 0 cexUpdates4 cexRestr10).toOption.getD ⟨"", [], [], 0⟩

def dupSpecs : List FlowSpec := [⟨"A", [], false⟩, ⟨"A ", [], false⟩]

def danglingSpecs : List FlowSpec := [⟨"A", ["Missing"], false⟩]

/-- Fixture for the amended-claim witnesses: a non-terminal allowed state
`A`, a terminal state `B`, a non-terminal disallowed state `C`, one
restricted update event, one unrestricted one, and one with an empty
restriction entry. -/
def witSpecs : List FlowSpec :=
  [⟨"A", ["B"], false⟩, ⟨"B", [], true⟩, ⟨"C", ["A"], false⟩]

def witUpdates : List (String × (Nat → Nat → String → Nat)) :=
  [("SET", updPut), ("U", updPut), ("U0", updPut)]

def witRestr : List (String × List String) := [("SET", ["A"]), ("U0", [])]

def witMD : MachineD Nat Nat :=
  (createFlowMachineWithData witSpecs 0 witUpdates witRestr).toOption.getD ⟨"", [], [], 0⟩

/-! ### Claims -/

/-- Claim C8: for the empty spec list, machine construction fails with a
construction error in every variant of the builder (`specs cannot be
empty`). -/
theorem c8_empty_specs (Data Value : Type) (d : Data)
    (updates : List (String × (Data → Value → String → Data)))
    (restricted : List (String × List String)) :
    createFlowMachineWithData [] d updates restricted = .error .emptySpecs ∧
    createFlowMachine [] = .error .emptySpecs ∧
    makeFlowMachine [] = .error .emptySpecs :=
  ⟨rfl, rfl, rfl⟩

/-- Claim C2: for every valid spec set (non-empty, unique names, all
targets declared; given in the normalized form in which the builder
contract of the spec receives it), construction succeeds in all three
builder variants and the initial state is the first spec's name. -/
theorem c2_valid_construction {Data Value : Type} (specs : List FlowSpec) (d : Data)
    (updates : List (String × (Data → Value → String → Data)))
    (restricted : List (String × List String)) (S0 : FlowSpec)
    (hn : normalizeSpecs specs = specs) (hv : validSpecs specs)
    (hS0 : specs.head? = some S0) :
    (∃ m : MachineD Data Value,
        createFlowMachineWithData specs d updates restricted = .ok m ∧
        m.initial = S0.name) ∧
    (∃ p : Machine × List LogEntry,
        createFlowMachine specs = .ok p ∧ p.1.initial = S0.name) ∧
    (∃ p : Machine × List LogEntry,
        makeFlowMachine specs = .ok p ∧ p.1.initial = S0.name) := by
  obtain ⟨hne, hnd, hcl⟩ := hv
  have hne' : normalizeSpecs specs ≠ [] := by rw [hn]; exact hne
  have hhead : specs.head hne = S0 := by
    cases specs with
    | nil => exact absurd rfl hne
    | cons a l =>
      simp only [List.head?_cons, Option.some.injEq] at hS0
      simpa using hS0
  have hheadN : (normalizeSpecs specs).head hne' = S0 := by
    have h1 : (normalizeSpecs specs).head? = some ((normalizeSpecs specs).head hne') :=
      List.head?_eq_head hne'
    generalize hgen : (normalizeSpecs specs).head hne' = x at h1 ⊢
    rw [hn, hS0] at h1
    exact (Option.some.inj h1).symm
  refine ⟨⟨_, createWithData_eq_ok d updates restricted hne'
      (by rw [hn]; exact hnd) (by rw [hn]; exact undefinedEdges_eq_nil hcl), ?_⟩,
    ⟨_, createFlow_eq_ok hne, ?_⟩, ⟨_, makeFlow_eq_ok hne, ?_⟩⟩
  · simp only [hheadN]
  · simp only [hhead]
  · simp only [hhead]

/-- Witness for C2 at the demo spec set. -/
theorem c2_valid_construction_witness :
    (∃ m : MachineD Nat Nat,
        createFlowMachineWithData demoSpecs 0 demoUpdates demoRestr = .ok m ∧
        m.initial = "Init") ∧
    (∃ p : Machine × List LogEntry,
        createFlowMachine demoSpecs = .ok p ∧ p.1.initial = "Init") ∧
    (∃ p : Machine × List LogEntry,
        makeFlowMachine demoSpecs = .ok p ∧ p.1.initial = "Init") :=
  c2_valid_construction demoSpecs 0 demoUpdates demoRestr ⟨"Init", ["Edit"], false⟩
    (by decide) (by decide) rfl

/-- Claim C1: for a valid (normalized-form) spec set, every non-terminal
state `S` with target `T` in its `to` list gives the built machine an edge
event named `TO_` ++ `T`; firing it while the current state is `S`
deterministically moves the current state to exactly `T` with no guard (in
both the data-carrying and the no-data variant); firing any edge event that
matches no declared transition of the current state leaves the current
state unchanged. -/
theorem c1_edge_events {Data Value : Type} (specs : List FlowSpec) (d : Data)
    (updates : List (String × (Data → Value → String → Data)))
    (restricted : List (String × List String)) (m : MachineD Data Value)
    (m' : Machine) (logs : List LogEntry) (S : FlowSpec) (T : String)
    (hn : normalizeSpecs specs = specs) (hv : validSpecs specs)
    (hm : createFlowMachineWithData specs d updates restricted = .ok m)
    (hm' : createFlowMachine specs = .ok (m', logs))
    (hS : S ∈ specs) (hterm : S.terminal = false) (hT : T ∈ S.«to») :
    (∃ node, objLookup m.states S.name = some node ∧
        objLookup node.«on» (edgeEvent T) = some T) ∧
    (∀ (dd : Data) (v : Value),
        stepFlowD m ⟨S.name, dd⟩ (edgeEvent T) v = (⟨T, dd⟩, [])) ∧
    stepFlow m' S.name (edgeEvent T) = T ∧
    (∀ ev, (∀ T' ∈ S.«to», ev ≠ edgeEvent T') → stepFlow m' S.name ev = S.name) ∧
    (∀ ev (dd : Data) (v : Value), (∀ T' ∈ S.«to», ev ≠ edgeEvent T') →
        (stepFlowD m ⟨S.name, dd⟩ ev v).1.value = S.name) := by
  obtain ⟨hne, hnd, _⟩ := hv
  have hms : m.states = mkStates specs := by
    have h0 := (createWithData_ok_elim hm).1
    rw [hn] at h0
    exact h0
  have hm'eq : m' = { initial := (specs.head hne).name, states := mkStates specs } := by
    have h2 := hm'.symm.trans (createFlow_eq_ok hne)
    exact congrArg Prod.fst (Except.ok.inj h2)
  have hfin : (mkNode S).isFinal = false := by simp [mkNode, hterm]
  have hon : (mkNode S).«on» = S.«to».map (fun t => (edgeEvent t, t)) := by
    simp [mkNode, hterm]
  have hnode : objLookup m.states S.name = some (mkNode S) := by
    rw [hms]; exact mkStates_lookup hnd hS
  have hnode' : objLookup m'.states S.name = some (mkNode S) := by
    rw [hm'eq]; exact mkStates_lookup hnd hS
  have hedge : objLookup (mkNode S).«on» (edgeEvent T) = some T := by
    rw [hon]; exact objLookup_edges hT
  refine ⟨⟨mkNode S, hnode, hedge⟩, ?_, stepFlow_edge hnode' hfin hedge, ?_, ?_⟩
  · intro dd v
    exact stepFlowD_edge hnode hfin hedge
  · intro ev hmiss
    refine stepFlow_miss hnode' hfin ?_
    rw [hon]
    exact objLookup_edges_none hmiss
  · intro ev dd v hmiss
    refine stepFlowD_value (fun node h0 => ?_)
    have hnd2 : node = mkNode S := by
      rw [hnode] at h0
      exact (Option.some.inj h0).symm
    subst hnd2
    rw [hon]
    exact objLookup_edges_none hmiss

/-- Witness for C1 at the demo spec set: `TO_Saved` moves `Edit` to
`Saved`; `TO_Init` matches no transition of `Edit` and is ignored. -/
theorem c1_edge_events_witness :
    stepFlowD demoMD ⟨"Edit", (7:Nat)⟩ (edgeEvent "Saved") (0:Nat) = (⟨"Saved", 7⟩, []) ∧
    stepFlow demoM "Edit" (edgeEvent "Saved") = "Saved" ∧
    stepFlow demoM "Edit" (edgeEvent "Init") = "Edit" ∧
    (stepFlowD demoMD ⟨"Edit", (7:Nat)⟩ (edgeEvent "Init") (0:Nat)).1.value = "Edit" := by
  have h := c1_edge_events demoSpecs (0:Nat) demoUpdates demoRestr demoMD demoM []
    ⟨"Edit", ["Saved"], false⟩ "Saved"
    (by decide) (by decide) rfl rfl (by decide) rfl (by decide)
  exact ⟨h.2.1 7 0, h.2.2.1, h.2.2.2.1 (edgeEvent "Init") (by decide),
    h.2.2.2.2 (edgeEvent "Init") 7 0 (by decide)⟩

/-- Claim C5: for a valid (normalized-form) spec set, every spec marked
terminal yields a state with no outgoing event handlers (a bare final
node), and once the current state is that state every event — edge or
otherwise — leaves the machine unchanged, in both variants; iterating any
event sequence never changes the state again. -/
theorem c5_terminal_absorbing {Data Value : Type} (specs : List FlowSpec) (d : Data)
    (updates : List (String × (Data → Value → String → Data)))
    (restricted : List (String × List String)) (m : MachineD Data Value)
    (m' : Machine) (logs : List LogEntry) (S : FlowSpec)
    (hn : normalizeSpecs specs = specs) (hv : validSpecs specs)
    (hm : createFlowMachineWithData specs d updates restricted = .ok m)
    (hm' : createFlowMachine specs = .ok (m', logs))
    (hS : S ∈ specs) (hterm : S.terminal = true) :
    objLookup m.states S.name = some ⟨true, []⟩ ∧
    objLookup m'.states S.name = some ⟨true, []⟩ ∧
    (∀ ev (dd : Data) (v : Value), stepFlowD m ⟨S.name, dd⟩ ev v = (⟨S.name, dd⟩, [])) ∧
    (∀ ev, stepFlow m' S.name ev = S.name) ∧
    (∀ evs : List String, evs.foldl (stepFlow m') S.name = S.name) := by
  obtain ⟨hne, hnd, _⟩ := hv
  have hms : m.states = mkStates specs := by
    have h0 := (createWithData_ok_elim hm).1
    rw [hn] at h0
    exact h0
  have hm'eq : m' = { initial := (specs.head hne).name, states := mkStates specs } := by
    have h2 := hm'.symm.trans (createFlow_eq_ok hne)
    exact congrArg Prod.fst (Except.ok.inj h2)
  have hmk : mkNode S = ⟨true, []⟩ := by simp [mkNode, hterm]
  have hnode : objLookup m.states S.name = some ⟨true, []⟩ := by
    rw [hms, ← hmk]; exact mkStates_lookup hnd hS
  have hnode' : objLookup m'.states S.name = some ⟨true, []⟩ := by
    rw [hm'eq, ← hmk]; exact mkStates_lookup hnd hS
  have hstep : ∀ ev, stepFlow m' S.name ev = S.name :=
    fun ev => stepFlow_final hnode' rfl
  refine ⟨hnode, hnode', ?_, hstep, ?_⟩
  · intro ev dd v
    exact stepFlowD_final hnode rfl
  · intro evs
    induction evs with
    | nil => rfl
    | cons e es ih => rw [List.foldl_cons, hstep e]; exact ih

/-- Witness for C5: the terminal state `Saved` of the demo machine absorbs
every event. -/
theorem c5_terminal_absorbing_witness :
    objLookup demoMD.states "Saved" = some ⟨true, []⟩ ∧
    stepFlowD demoMD ⟨"Saved", (3:Nat)⟩ (edgeEvent "Edit") (0:Nat) = (⟨"Saved", 3⟩, []) ∧
    stepFlow demoM "Saved" (edgeEvent "Edit") = "Saved" ∧
    ([edgeEvent "Edit", "SET_X"].foldl (stepFlow demoM) "Saved") = "Saved" := by
  have h := c5_terminal_absorbing demoSpecs (0:Nat) demoUpdates demoRestr demoMD demoM []
    ⟨"Saved", [], true⟩
    (by decide) (by decide) rfl rfl (by decide) rfl
  exact ⟨h.1, h.2.2.1 (edgeEvent "Edit") 3 0, h.2.2.2.1 (edgeEvent "Edit"),
    h.2.2.2.2 [edgeEvent "Edit", "SET_X"]⟩

/-- Counterexample to Claim C6 as stated: the specs `A` and `"A "` share
the same normalized name (both trim to `A`), and the strict builder does
throw the duplicate-state error, but the lenient builder — which compares
raw, un-normalized names — produces a running machine with an empty log
list: no duplicate error is logged, contradicting the claim that the
lenient variant logs an error whenever two specs share a normalized name. -/
theorem c6_counterexample :
    declaredNames (normalizeSpecs dupSpecs) = ["A", "A"] ∧
    createFlowMachineWithData dupSpecs (0:Nat)
      ([] : List (String × (Nat → Nat → String → Nat))) [] =
      .error (.duplicateState "A") ∧
    (createFlowMachine dupSpecs).toOption.map Prod.snd = some [] :=
  ⟨by decide, rfl, by decide⟩

/-- Claim C6 (amended): when two specs share the same NORMALIZED name the
strict data-carrying builder throws the duplicate-state error; the lenient
builder logs a duplicate error and continues (producing a running machine)
only when two specs share the same RAW name — it performs no
normalization, so name collisions that appear only after trimming go
unreported there. -/
theorem c6_duplicate_amended {Data Value : Type} {specs : List FlowSpec} (d : Data)
    (updates : List (String × (Data → Value → String → Data)))
    (restricted : List (String × List String)) {dn dr : String}
    (hdupN : findDup [] (declaredNames (normalizeSpecs specs)) = some dn)
    (hdupR : findDup [] (declaredNames specs) = some dr) :
    createFlowMachineWithData specs d updates restricted =
      .error (.duplicateState dn) ∧
    (∃ m logs, createFlowMachine specs = .ok (m, logs) ∧
      LogEntry.errorDuplicate dr ∈ logs) := by
  have hne : specs ≠ [] := by
    intro h0
    rw [h0] at hdupR
    cases hdupR
  have hneN : normalizeSpecs specs ≠ [] := by
    intro h0
    rw [h0] at hdupN
    cases hdupN
  constructor
  · unfold createFlowMachineWithData
    rw [dif_neg hneN]
    split
    · next d' heq =>
      rw [hdupN] at heq
      cases heq
      rfl
    · next heq =>
      rw [hdupN] at heq
      cases heq
  · refine ⟨_, _, createFlow_eq_ok hne, ?_⟩
    rw [hdupR]
    exact List.mem_append_left _ (List.mem_singleton.mpr rfl)

/-- Witness for the amended C6 at a raw duplicate: both builders react. -/
theorem c6_duplicate_amended_witness :
    createFlowMachineWithData [⟨"A", [], false⟩, ⟨"A", [], false⟩] (0:Nat)
      ([] : List (String × (Nat → Nat → String → Nat))) [] =
      .error (.duplicateState "A") ∧
    (∃ m logs, createFlowMachine [⟨"A", [], false⟩, ⟨"A", [], false⟩] = .ok (m, logs) ∧
      LogEntry.errorDuplicate "A" ∈ logs) :=
  c6_duplicate_amended 0 [] [] (by decide) (by decide)

theorem createWithData_eq_error_dangling {Data Value : Type} {specs : List FlowSpec}
    (d : Data) (updates : List (String × (Data → Value → String → Data)))
    (restricted : List (String × List String))
    (hnd : (declaredNames (normalizeSpecs specs)).Nodup)
    (hdang : undefinedEdges (normalizeSpecs specs) ≠ []) :
    createFlowMachineWithData specs d updates restricted =
      .error (.undefinedTargets (undefinedEdges (normalizeSpecs specs))) := by
  have hne : normalizeSpecs specs ≠ [] := by
    intro h0
    apply hdang
    rw [h0]
    rfl
  unfold createFlowMachineWithData
  rw [dif_neg hne]
  have hfd := findDup_eq_none hnd (fun n _ => List.not_mem_nil n)
  split
  · next d' heq =>
    rw [hfd] at heq
    cases heq
  · rw [if_neg hdang]

/-- Claim C7: for a (normalized-form) spec set with unique names, if some
`to` entry references an undeclared name, the data-carrying builder throws
the undefined-targets error listing exactly the dangling edges, while the
two no-data builders continue construction, producing a machine, and log
exactly one unknown-target error per dangling edge. -/
theorem c7_dangling_edges {Data Value : Type} {specs : List FlowSpec} (d : Data)
    (updates : List (String × (Data → Value → String → Data)))
    (restricted : List (String × List String))
    (hn : normalizeSpecs specs = specs)
    (hnd : (declaredNames specs).Nodup)
    (hdang : undefinedEdges specs ≠ []) :
    createFlowMachineWithData specs d updates restricted =
      .error (.undefinedTargets (undefinedEdges specs)) ∧
    (∃ m, createFlowMachine specs =
      .ok (m, (undefinedEdges specs).map (fun p => LogEntry.errorUnknownTarget p.1 p.2))) ∧
    (∃ m, makeFlowMachine specs =
      .ok (m, (undefinedEdges specs).map (fun p => LogEntry.errorUnknownTarget p.1 p.2))) := by
  have hne : specs ≠ [] := by
    intro h0
    apply hdang
    rw [h0]
    rfl
  have hstrict := createWithData_eq_error_dangling d updates restricted
    (by rw [hn]; exact hnd) (by rw [hn]; exact hdang)
  rw [hn] at hstrict
  have hlogs : (match findDup [] (declaredNames specs) with
      | some d => [LogEntry.errorDuplicate d]
      | none => []) = ([] : List LogEntry) := by
    rw [findDup_eq_none hnd (fun n _ => List.not_mem_nil n)]
  refine ⟨hstrict,
    ⟨{ initial := (specs.head hne).name, states := mkStates specs }, ?_⟩,
    ⟨{ initial := (specs.head hne).name, states := mkStates specs }, makeFlow_eq_ok hne⟩⟩
  rw [createFlow_eq_ok hne, hlogs, List.nil_append]

/-- Witness for C7 at a one-state spec set with a dangling edge. -/
theorem c7_dangling_edges_witness :
    createFlowMachineWithData danglingSpecs (0:Nat)
      ([] : List (String × (Nat → Nat → String → Nat))) [] =
      .error (.undefinedTargets [("A", "Missing")]) ∧
    (∃ m, createFlowMachine danglingSpecs =
      .ok (m, [LogEntry.errorUnknownTarget "A" "Missing"])) ∧
    (∃ m, makeFlowMachine danglingSpecs =
      .ok (m, [LogEntry.errorUnknownTarget "A" "Missing"])) :=
  c7_dangling_edges 0 [] [] (by decide) (by decide) (by decide)

/-- Counterexample to Claim C9 as stated: `TO_B` is an UpdateMap key of
the built machine `cexMD4`, yet firing it while the current state is `A`
changes the current state to `B`: the state-level edge entry `TO_B` of `A`
takes precedence over the root-level update handler of the same name, so a
global update event CAN change the current state. -/
theorem c9_counterexample :
    createFlowMachineWithData cexSpecs (0:Nat) cexUpdates4 [] = .ok cexMD4 ∧
    "TO_B" ∈ cexUpdates4.map Prod.fst ∧
    (stepFlowD cexMD4 ⟨"A", 0⟩ "TO_B" 5).1.value = "B" ∧
    ¬ (stepFlowD cexMD4 ⟨"A", 0⟩ "TO_B" 5).1.value = "A" :=
  ⟨rfl, by decide, rfl, by decide⟩

/-- Claim C9 (amended): firing a global update event never changes the
machine's current state, PROVIDED its name does not match an edge event
declared by the current state's node (if it does, the state-level edge
transition takes precedence and moves the state). -/
theorem c9_frame_amended {Data Value : Type} (specs : List FlowSpec) (d : Data)
    (updates : List (String × (Data → Value → String → Data)))
    (restricted : List (String × List String)) (m : MachineD Data Value)
    (ev : String) (snap : SnapshotD Data) (v : Value)
    (_hm : createFlowMachineWithData specs d updates restricted = .ok m)
    (_hev : ev ∈ updates.map Prod.fst)
    (hnocol : ∀ node, objLookup m.states snap.value = some node →
        objLookup node.«on» ev = none) :
    (stepFlowD m snap ev v).1.value = snap.value :=
  stepFlowD_value hnocol

/-- Witness for the amended C9: the non-colliding update key `E` leaves
the state of `cexMD4` unchanged. -/
theorem c9_frame_amended_witness :
    (stepFlowD cexMD4 ⟨"A", (0:Nat)⟩ "E" (5:Nat)).1.value = "A" := by
  refine c9_frame_amended cexSpecs 0 cexUpdates4 [] cexMD4 "E" ⟨"A", 0⟩ 5
    rfl (by decide) (fun node h0 => ?_)
  have h1 : (some ⟨false, [("TO_B", "B")]⟩ : Option StateNode) = some node := h0
  rw [← Option.some.inj h1]
  rfl

theorem stepFlowD_unrestricted {Data Value : Type} {specs : List FlowSpec} {d : Data}
    {updates : List (String × (Data → Value → String → Data))}
    {restricted : List (String × List String)} {m : MachineD Data Value}
    (hm : createFlowMachineWithData specs d updates restricted = .ok m)
    (hkeys : (updates.map Prod.fst).Nodup)
    {ev : String} {u : Data → Value → String → Data} (hmem : (ev, u) ∈ updates)
    (hemp : ((objLookup restricted ev).getD []).map norm = [])
    {snap : SnapshotD Data} {v : Value} {node : StateNode}
    (hnode : objLookup m.states snap.value = some node)
    (hfin : node.isFinal = false)
    (hnocol : objLookup node.«on» ev = none) :
    stepFlowD m snap ev v = (⟨snap.value, u snap.data v ""⟩, []) := by
  have hglob := (createWithData_ok_elim hm).2
  have hlook : objLookup m.globalOn ev = some (mkHandler restricted ev u) := by
    rw [hglob]
    exact mkGlobalOn_lookup hkeys hmem
  have hhand : mkHandler restricted ev u = .unrestrictedOn u := by
    unfold mkHandler
    rw [if_pos hemp]
  rw [hhand] at hlook
  rw [stepFlowD_global hnode hfin hnocol]
  unfold applyGlobal
  rw [hlook]

/-- Counterexample to Claim C4 as stated: in `cexMD4` the unrestricted
update entry `TO_B` collides with the edge event of state `A`, so firing
it from `A` transitions to `B` without applying the updater; and firing
the unrestricted entry `E` from the terminal state `B` is ignored (the
machine is done), not applied.  In both cases the claim demanded data
`updAdd 0 5 "" = 5`. -/
theorem c4_counterexample :
    createFlowMachineWithData cexSpecs (0:Nat) cexUpdates4 [] = .ok cexMD4 ∧
    objLookup ([] : List (String × List String)) "TO_B" = none ∧
    stepFlowD cexMD4 ⟨"A", 0⟩ "TO_B" 5 = (⟨"B", 0⟩, []) ∧
    ¬ (stepFlowD cexMD4 ⟨"A", 0⟩ "TO_B" 5).1.data = updAdd 0 5 "" ∧
    stepFlowD cexMD4 ⟨"B", 0⟩ "E" 5 = (⟨"B", 0⟩, []) ∧
    ¬ (stepFlowD cexMD4 ⟨"B", 0⟩ "E" 5).1.data = updAdd 0 5 "" :=
  ⟨rfl, rfl, rfl, by decide, rfl, by decide⟩

/-- Claim C4 (amended): for an UpdateMap entry with no RestrictionMap
entry, firing its event from any NON-TERMINAL current state whose node does
not declare the event as an edge event applies the updater, replacing the
attached data with its return value computed with the empty string as the
current-state placeholder; the current state is unchanged and nothing is
logged. -/
theorem c4_unrestricted_update_amended {Data Value : Type} (specs : List FlowSpec)
    (d : Data) (updates : List (String × (Data → Value → String → Data)))
    (restricted : List (String × List String)) (m : MachineD Data Value)
    (ev : String) (u : Data → Value → String → Data)
    (snap : SnapshotD Data) (v : Value) (node : StateNode)
    (hm : createFlowMachineWithData specs d updates restricted = .ok m)
    (hkeys : (updates.map Prod.fst).Nodup)
    (hmem : (ev, u) ∈ updates)
    (hnor : objLookup restricted ev = none)
    (hnode : objLookup m.states snap.value = some node)
    (hfin : node.isFinal = false)
    (hnocol : objLookup node.«on» ev = none) :
    stepFlowD m snap ev v = (⟨snap.value, u snap.data v ""⟩, []) := by
  refine stepFlowD_unrestricted hm hkeys hmem ?_ hnode hfin hnocol
  rw [hnor]
  rfl

/-- Witness for the amended C4: the unrestricted entry `U` of `witMD`
applies from the non-terminal state `C` with the `""` placeholder. -/
theorem c4_unrestricted_update_amended_witness :
    stepFlowD witMD ⟨"C", (3:Nat)⟩ "U" (9:Nat) = (⟨"C", updPut 3 9 ""⟩, []) :=
  c4_unrestricted_update_amended witSpecs 0 witUpdates witRestr witMD "U" updPut
    ⟨"C", 3⟩ 9 ⟨false, [("TO_A", "A")]⟩ rfl (by decide)
    (List.mem_cons_of_mem _ (List.mem_cons_self _ _)) rfl rfl rfl rfl

/-- Counterexample to Claim C10 as stated: in `cexMD10` both update
entries have an (empty) RestrictionMap entry and are therefore installed
unrestricted — but firing `E` from the terminal state `B` does NOT apply
the updater (the machine is done), and firing `TO_B` from `A` transitions
instead of updating, contradicting the claim that the event is applied
from ANY state.  The branch selection itself is real: `E` fired from the
non-terminal state `A` does apply the updater with the `""` placeholder. -/
theorem c10_counterexample :
    createFlowMachineWithData cexSpecs (0:Nat) cexUpdates4 cexRestr10 = .ok cexMD10 ∧
    objLookup cexRestr10 "E" = some [] ∧
    stepFlowD cexMD10 ⟨"B", 0⟩ "E" 5 = (⟨"B", 0⟩, []) ∧
    ¬ (stepFlowD cexMD10 ⟨"B", 0⟩ "E" 5).1.data = updAdd 0 5 "" ∧
    stepFlowD cexMD10 ⟨"A", 0⟩ "TO_B" 5 = (⟨"B", 0⟩, []) ∧
    ¬ (stepFlowD cexMD10 ⟨"A", 0⟩ "TO_B" 5).1.data = updAdd 0 5 "" ∧
    stepFlowD cexMD10 ⟨"A", 0⟩ "E" 5 = (⟨"A", updAdd 0 5 ""⟩, []) :=
  ⟨rfl, rfl, rfl, by decide, rfl, by decide, rfl⟩

/-- Claim C10 (amended): an UpdateMap entry whose RestrictionMap entry is
an empty list is installed exactly like an unrestricted event: firing it
from any NON-TERMINAL state whose node does not declare the event as an
edge event applies the updater with the empty-string state placeholder
(rather than being a no-op in every state). -/
theorem c10_empty_restriction_amended {Data Value : Type} (specs : List FlowSpec)
    (d : Data) (updates : List (String × (Data → Value → String → Data)))
    (restricted : List (String × List String)) (m : MachineD Data Value)
    (ev : String) (u : Data → Value → String → Data) (l : List String)
    (snap : SnapshotD Data) (v : Value) (node : StateNode)
    (hm : createFlowMachineWithData specs d updates restricted = .ok m)
    (hkeys : (updates.map Prod.fst).Nodup)
    (hmem : (ev, u) ∈ updates)
    (hres : objLookup restricted ev = some l)
    (hl : l.map norm = [])
    (hnode : objLookup m.states snap.value = some node)
    (hfin : node.isFinal = false)
    (hnocol : objLookup node.«on» ev = none) :
    stepFlowD m snap ev v = (⟨snap.value, u snap.data v ""⟩, []) := by
  refine stepFlowD_unrestricted hm hkeys hmem ?_ hnode hfin hnocol
  rw [hres]
  exact hl

/-- Witness for the amended C10: the entry `U0` of `witMD` has the empty
restriction entry and applies from the non-terminal state `C`. -/
theorem c10_empty_restriction_amended_witness :
    stepFlowD witMD ⟨"C", (3:Nat)⟩ "U0" (9:Nat) = (⟨"C", updPut 3 9 ""⟩, []) :=
  c10_empty_restriction_amended witSpecs 0 witUpdates witRestr witMD "U0" updPut []
    ⟨"C", 3⟩ 9 ⟨false, [("TO_A", "A")]⟩ rfl (by decide)
    (List.mem_cons_of_mem _ (List.mem_cons_of_mem _ (List.mem_cons_self _ _)))
    rfl rfl rfl rfl rfl

/-- Claim C3 states the clear intent of the code — the declared updater
type takes a `currentState` argument and the restricted handler is built
to gate on the allowed set and warn otherwise — but the code has a slip:
its guard destructures `self` from the xstate v5 guard arguments, which
the runtime does not provide, and its assign callback reads the free
`self` from the enclosing (global) scope.  Either reference makes firing
a restricted update event from a non-final state with no edge-name
collision throw a TypeError and stop the actor: the updater is never
applied with the current state name, and the warning is never logged, in
allowed and disallowed states alike.  Evaluated here on the spec
scenario machine (`SET_X` restricted to `Edit`): firing `SET_X` with
value `5` in the allowed state `Edit` does not produce the claimed data
`updPut 0 5 "Edit"`, and firing it in the disallowed state `Init` does
not produce the claimed console warning — both yield the retained
snapshot plus the thrown TypeError. -/
theorem c3_restricted_update_code_bug :
    createFlowMachineWithData demoSpecs (0:Nat) demoUpdates demoRestr = .ok demoMD ∧
    ((objLookup demoRestr "SET_X").getD []).map norm = ["Edit"] ∧
    stepFlowD demoMD ⟨"Edit", 0⟩ "SET_X" 5 =
      (⟨"Edit", 0⟩, [LogEntry.thrownTypeError "SET_X"]) ∧
    ¬ (stepFlowD demoMD ⟨"Edit", 0⟩ "SET_X" 5).1.data = updPut 0 5 "Edit" ∧
    stepFlowD demoMD ⟨"Init", 0⟩ "SET_X" 5 =
      (⟨"Init", 0⟩, [LogEntry.thrownTypeError "SET_X"]) ∧
    ¬ (stepFlowD demoMD ⟨"Init", 0⟩ "SET_X" 5).2 = [LogEntry.warnIgnored "SET_X"] :=
  ⟨rfl, by decide, rfl, by decide, rfl, by decide⟩
